import Mathlib

/-!
Shallow embedding of the numerical engine of the VectorFieldVisualizer
repository: expression compilation guards, point-source field combination,
central-difference divergence on a fixed grid, particle integration with
respawn, and palette color mapping.  JavaScript numbers are modelled as
rationals; a JavaScript number that may be non-finite (NaN or an infinity)
is modelled by the type JsNum below.
-/

namespace VFV

/-- A JavaScript number as observed by the isFinite checks of the source:
either a finite value, modelled as a rational, or a non-finite value
(NaN, Infinity and -Infinity collapsed into one constructor, since the
source only ever branches on isFinite). -/
inductive JsNum where
  | fin (v : ℚ)
  | nonFinite
deriving DecidableEq

/-- The isFinite test applied to a JsNum. -/
def JsNum.isFinite : JsNum → Bool
  | .fin _ => true
  | .nonFinite => false

/-- Outcome of one raw invocation of the dynamically created function inside
createFieldFunction: the body can throw, return a value that is not a
number, return a non-finite number, or return a finite number (modelled as
a rational). -/
inductive EvalOutcome where
  | thrown
  | nonNumber
  | numNonFinite
  | numFinite (v : ℚ)
deriving DecidableEq

/-- The guard wrapped around one raw invocation in createFieldFunction:
return the result when it is a finite number, and 0 when the call threw,
returned a non-number, or returned a non-finite number. -/
def guardOutcome : EvalOutcome → ℚ
  | .numFinite v => v
  | _ => 0

/-- createFieldFunction of the 2D view.  Construction of the Function object
from the source string either fails with a syntax error (modelled none) or
yields a raw evaluator (modelled some f, a function from the two arguments
to an EvalOutcome); on failure the constant-zero function is returned, and
on success every invocation is guarded by guardOutcome. -/
def createFieldFunction (compiled : Option (ℚ → ℚ → EvalOutcome)) : ℚ → ℚ → ℚ :=
  match compiled with
  | none => fun _ _ => 0
  | some f => fun x y => guardOutcome (f x y)

/-- createFieldFunction3D of the 3D view: same structure with three
arguments. -/
def createFieldFunction3D (compiled : Option (ℚ → ℚ → ℚ → EvalOutcome)) : ℚ → ℚ → ℚ → ℚ :=
  match compiled with
  | none => fun _ _ _ => 0
  | some f => fun x y z => guardOutcome (f x y z)

/-- A raw evaluator as the Function constructor actually builds it: the body
is compiled at global scope, so besides the declared parameters x, y and
Math it can reference every binding of the JavaScript global object.  The
observable ambient state is modelled abstractly as one rational (for
example the value the global Date.now() returns at call time), passed as
an extra first argument. -/
def createFieldFunctionAmbient (compiled : Option (ℚ → ℚ → ℚ → EvalOutcome)) :
    ℚ → ℚ → ℚ → ℚ :=
  match compiled with
  | none => fun _ _ _ => 0
  | some f => fun g x y => guardOutcome (f g x y)

/-- The raw evaluator the Function constructor yields for the source string
Date.now(): a call returns the ambient clock value, a finite number that
does not depend on the declared variables x and y. -/
def dateNowRaw : ℚ → ℚ → ℚ → EvalOutcome := fun g _ _ => .numFinite g

/-- A point source or sink of the 2D view (interface PointSource): id,
position, strength (sign encodes source or sink) and kind. -/
structure PointSource where
  id : ℤ
  x : ℚ
  y : ℚ
  strength : ℚ
  isSource : Bool
deriving DecidableEq

/-- The combined x component of the effective field: the loop of the Fx
closure in VectorField2D, folding the point-source contributions onto the
base value, each contribution strength * dx / (dx*dx + dy*dy + 0.01). -/
def combinedFx (baseFx : ℚ → ℚ → ℚ) (sources : List PointSource) (x y : ℚ) : ℚ :=
  sources.foldl
    (fun acc ps =>
      acc + ps.strength * (x - ps.x) /
        ((x - ps.x) * (x - ps.x) + (y - ps.y) * (y - ps.y) + 1/100))
    (baseFx x y)

/-- The combined y component of the effective field: the loop of the Fy
closure in VectorField2D. -/
def combinedFy (baseFy : ℚ → ℚ → ℚ) (sources : List PointSource) (x y : ℚ) : ℚ :=
  sources.foldl
    (fun acc ps =>
      acc + ps.strength * (y - ps.y) /
        ((x - ps.x) * (x - ps.x) + (y - ps.y) * (y - ps.y) + 1/100))
    (baseFy x y)

/-- The normalization of one divergence sample against the recorded range,
from the background drawing pass of VectorField2D: the midpoint 0.5 when
the range is degenerate, the affine rescaling otherwise. -/
def normalizeDiv (div minD maxD : ℚ) : ℚ :=
  if maxD = minD then 1/2 else (div - minD) / (maxD - minD)

/-- The sources of the Electric Dipole entry of physicsPresets: a source of
strength 3 at (-1, 0) and a sink of strength -3 at (1, 0); ids 0 and 1 as
loadPhysicsPreset assigns them in order.  The base field strings of the
preset are both the constant-zero expression. -/
def electricDipoleSources : List PointSource :=
  [⟨0, -1, 0, 3, true⟩, ⟨1, 1, 0, -3, false⟩]

/-- The compiled base field of the dipole preset: both components are the
expression 0. -/
def zeroBase : ℚ → ℚ → ℚ := fun _ _ => 0

/-- Replace every strength of a source list by c times it, leaving positions
untouched. -/
def scaleStrengths (c : ℚ) (l : List PointSource) : List PointSource :=
  l.map (fun ps => { ps with strength := c * ps.strength })

/-- The fixed step h = 0.01 of the central difference in the function
derivative of the 2D view. -/
def hStep : ℚ := 1/100

/-- The axis argument of the function derivative. -/
inductive Axis where
  | x
  | y

/-- Numerical derivative by central difference, from the function derivative
of the 2D view: (f(x+h, y) - f(x-h, y)) / (2h) along the x axis and the
symmetric difference in the second argument along the y axis. -/
def derivative (f : ℚ → ℚ → ℚ) (x y : ℚ) : Axis → ℚ
  | .x => (f (x + hStep) y - f (x - hStep) y) / (2 * hStep)
  | .y => (f x (y + hStep) - f x (y - hStep)) / (2 * hStep)

/-- The fine grid resolution of the 2D view (const gridSize = 100). -/
def gridSize : ℕ := 100

/-- The 2D view domain half-range (const range = 3). -/
def range2D : ℚ := 3

/-- The grid spacing (const step = (2 * range) / gridSize). -/
def gridStep : ℚ := 2 * range2D / (gridSize : ℚ)

/-- The x coordinate of grid column i (x = -range + i * step). -/
def gridPointX (i : ℕ) : ℚ := -range2D + (i : ℚ) * gridStep

/-- The y coordinate of grid row j (y = range - j * step). -/
def gridPointY (j : ℕ) : ℚ := range2D - (j : ℚ) * gridStep

/-- The divergence sample at one point: the sum of the central-difference
partial of Fx along x and of Fy along y. -/
def divergenceAt (Fx Fy : ℚ → ℚ → ℚ) (x y : ℚ) : ℚ :=
  derivative Fx x y .x + derivative Fy x y .y

/-- The divergence grid the 2D view fills before the animation loop: the
loops run i from 0 to gridSize and j from 0 to gridSize, both ends
included, writing divergenceGrid[i][j] = div at the grid point. -/
def buildDivergenceGrid (Fx Fy : ℚ → ℚ → ℚ) : List (List ℚ) :=
  (List.range (gridSize + 1)).map (fun i =>
    (List.range (gridSize + 1)).map (fun j =>
      divergenceAt Fx Fy (gridPointX i) (gridPointY j)))

/-- A tracer particle of the 2D view (interface Particle). -/
structure Particle where
  x : ℚ
  y : ℚ
  life : ℚ
deriving DecidableEq

/-- The two Math.random() draws a 2D respawn consumes, injected so the step
is a pure function. -/
structure Rand2 where
  r1 : ℚ
  r2 : ℚ

/-- The per-frame timestep of the 2D view (const dt = 0.016 *
animationSpeed). -/
def dtOf (speed : ℚ) : ℚ := 16/1000 * speed

/-- The per-frame life decay of the 2D view (particle.life -= 0.005 *
animationSpeed). -/
def lifeDecay2D (speed : ℚ) : ℚ := 5/1000 * speed

/-- The Euler advance of one 2D particle: sample the field at the particle
position and, when both components are finite, move by velocity * dt;
otherwise leave the position untouched. -/
def advance (Fx Fy : ℚ → ℚ → JsNum) (speed : ℚ) (p : Particle) : Particle :=
  match Fx p.x p.y, Fy p.x p.y with
  | .fin vx, .fin vy => { p with x := p.x + vx * dtOf speed, y := p.y + vy * dtOf speed }
  | _, _ => p

/-- The life decrement of one 2D particle. -/
def decayLife (speed : ℚ) (p : Particle) : Particle :=
  { p with life := p.life - lifeDecay2D speed }

/-- The respawn check of the 2D view: when life has run out or a coordinate
left the domain, reassign the position from the injected random draws as
(Math.random() * 2 - 1) * range on each axis and reset life to 1. -/
def respawnCheck (range : ℚ) (rnd : Rand2) (p : Particle) : Particle :=
  if p.life ≤ 0 ∨ range < |p.x| ∨ range < |p.y| then
    { x := (rnd.r1 * 2 - 1) * range, y := (rnd.r2 * 2 - 1) * range, life := 1 }
  else p

/-- One full update of one 2D particle inside the animation loop: Euler
advance, then life decay, then the respawn check. -/
def stepParticle2D (Fx Fy : ℚ → ℚ → JsNum) (speed range : ℚ) (rnd : Rand2)
    (p : Particle) : Particle :=
  respawnCheck range rnd (decayLife speed (advance Fx Fy speed p))

/-- The single synchronous pass of the animation loop over the particle
list; the injected random stream rnd is indexed by particle position in
the list, offset by the first argument. -/
def stepParticles2D (Fx Fy : ℚ → ℚ → JsNum) (speed range : ℚ) (rnd : ℕ → Rand2) :
    ℕ → List Particle → List Particle
  | _, [] => []
  | i, p :: ps =>
      stepParticle2D Fx Fy speed range (rnd i) p ::
        stepParticles2D Fx Fy speed range rnd (i + 1) ps

/-- A tracer particle of the 3D view (interface Particle3D): position,
stored velocity vector, and life. -/
structure Particle3D where
  px : ℚ
  py : ℚ
  pz : ℚ
  vx : ℚ
  vy : ℚ
  vz : ℚ
  life : ℚ
deriving DecidableEq

/-- The three Math.random() draws a 3D respawn consumes. -/
structure Rand3 where
  r1 : ℚ
  r2 : ℚ
  r3 : ℚ

/-- The Euler advance of one 3D particle from useFrame of ParticleSystem:
when all three sampled components are finite, move by component * delta *
speed on each axis; otherwise leave the position untouched. -/
def advance3D (Fx Fy Fz : ℚ → ℚ → ℚ → JsNum) (delta speed : ℚ) (p : Particle3D) :
    Particle3D :=
  match Fx p.px p.py p.pz, Fy p.px p.py p.pz, Fz p.px p.py p.pz with
  | .fin a, .fin b, .fin c =>
      { p with
          px := p.px + a * delta * speed
          py := p.py + b * delta * speed
          pz := p.pz + c * delta * speed }
  | _, _, _ => p

/-- The 3D life decrement (particle.life -= delta * 0.3 * speed). -/
def decayLife3D (delta speed : ℚ) (p : Particle3D) : Particle3D :=
  { p with life := p.life - delta * (3/10) * speed }

/-- The 3D respawn check: position reassigned from the injected random draws
on each axis and life reset to 1 when life ran out or a coordinate left
the domain; the stored velocity is untouched. -/
def respawnCheck3D (range : ℚ) (rnd : Rand3) (p : Particle3D) : Particle3D :=
  if p.life ≤ 0 ∨ range < |p.px| ∨ range < |p.py| ∨ range < |p.pz| then
    { p with
        px := (rnd.r1 * 2 - 1) * range
        py := (rnd.r2 * 2 - 1) * range
        pz := (rnd.r3 * 2 - 1) * range
        life := 1 }
  else p

/-- One full update of one 3D particle inside useFrame. -/
def stepParticle3D (Fx Fy Fz : ℚ → ℚ → ℚ → JsNum) (delta speed range : ℚ)
    (rnd : Rand3) (p : Particle3D) : Particle3D :=
  respawnCheck3D range rnd (decayLife3D delta speed (advance3D Fx Fy Fz delta speed p))

/-- The single synchronous pass of useFrame over the 3D particle list. -/
def stepParticles3D (Fx Fy Fz : ℚ → ℚ → ℚ → JsNum) (delta speed range : ℚ)
    (rnd : ℕ → Rand3) : ℕ → List Particle3D → List Particle3D
  | _, [] => []
  | i, p :: ps =>
      stepParticle3D Fx Fy Fz delta speed range (rnd i) p ::
        stepParticles3D Fx Fy Fz delta speed range rnd (i + 1) ps

/-- One color of a palette: integer red, green and blue channels. -/
structure RGB where
  r : ℤ
  g : ℤ
  b : ℤ
deriving DecidableEq

/-- The named palettes of the 2D view (type ColorTheme). -/
inductive ColorTheme where
  | viridis
  | plasma
  | cool
  | hot
  | rainbow
  | grayscale

/-- The anchor lists of the six palettes, from the colorMaps record. -/
def colorMaps : ColorTheme → List RGB
  | .viridis =>
      [⟨68, 1, 84⟩, ⟨72, 40, 120⟩, ⟨62, 73, 137⟩, ⟨49, 104, 142⟩, ⟨38, 130, 142⟩,
        ⟨31, 158, 137⟩, ⟨53, 183, 121⟩, ⟨110, 206, 88⟩, ⟨181, 222, 43⟩, ⟨253, 231, 37⟩]
  | .plasma =>
      [⟨13, 8, 135⟩, ⟨75, 3, 161⟩, ⟨125, 3, 168⟩, ⟨168, 34, 150⟩, ⟨203, 70, 121⟩,
        ⟨229, 107, 93⟩, ⟨248, 148, 65⟩, ⟨253, 195, 40⟩, ⟨240, 249, 33⟩]
  | .cool =>
      [⟨0, 255, 255⟩, ⟨51, 204, 255⟩, ⟨102, 153, 255⟩, ⟨153, 102, 255⟩,
        ⟨204, 51, 255⟩, ⟨255, 0, 255⟩]
  | .hot =>
      [⟨0, 0, 0⟩, ⟨128, 0, 0⟩, ⟨255, 0, 0⟩, ⟨255, 128, 0⟩, ⟨255, 255, 0⟩,
        ⟨255, 255, 128⟩, ⟨255, 255, 255⟩]
  | .rainbow =>
      [⟨148, 0, 211⟩, ⟨75, 0, 130⟩, ⟨0, 0, 255⟩, ⟨0, 255, 0⟩, ⟨255, 255, 0⟩,
        ⟨255, 127, 0⟩, ⟨255, 0, 0⟩]
  | .grayscale =>
      [⟨0, 0, 0⟩, ⟨64, 64, 64⟩, ⟨128, 128, 128⟩, ⟨192, 192, 192⟩, ⟨255, 255, 255⟩]

/-- The clamp of getColor: t = Math.max(0, Math.min(1, t)). -/
def clamp01 (t : ℚ) : ℚ := max 0 (min 1 t)

/-- JavaScript Math.round on a rational: the floor of q + 1/2 (halves round
toward positive infinity). -/
def jsRound (q : ℚ) : ℤ := ⌊q + 1/2⌋

/-- One channel of the linear interpolation of getColor:
Math.round(c1 + (c2 - c1) * frac). -/
def lerpChannel (a b : ℤ) (frac : ℚ) : ℤ :=
  jsRound ((a : ℚ) + ((b : ℚ) - (a : ℚ)) * frac)

/-- The body of getColor on an anchor list: clamp t, scale by N - 1, split
into floor index and fraction; at floor index N - 1 or above return the
last anchor unmodified, otherwise interpolate between the anchors at idx
and idx + 1.  Out-of-range anchor access is modelled by the Option (the
source would read undefined and throw); the theorems show it never
happens. -/
def interpolatePalette (t : ℚ) (colors : List RGB) : Option RGB :=
  let tc := clamp01 t
  let scaled := tc * ((colors.length : ℚ) - 1)
  let idx : ℤ := ⌊scaled⌋
  let frac : ℚ := scaled - (idx : ℚ)
  if ((colors.length : ℤ) - 1) ≤ idx then
    colors[colors.length - 1]?
  else
    match colors[idx.toNat]?, colors[idx.toNat + 1]? with
    | some c1, some c2 =>
        some ⟨lerpChannel c1.r c2.r frac, lerpChannel c1.g c2.g frac,
          lerpChannel c1.b c2.b frac⟩
    | _, _ => none

/-- getColor of the 2D view, as the RGB triple the returned rgb(...) string
carries. -/
def getColor (t : ℚ) (theme : ColorTheme) : Option RGB :=
  interpolatePalette t (colorMaps theme)

/-- The effective x component for the Radial Outward preset (expression
strings fx = x, fy = y) with the point-source set empty. -/
def radialFx : ℚ → ℚ → ℚ := combinedFx (fun x _ => x) []

/-- The effective y component for the Radial Outward preset with the
point-source set empty. -/
def radialFy : ℚ → ℚ → ℚ := combinedFy (fun _ y => y) []

/-! Theorems. -/

/-- Folding rational additions of a per-element term onto an initial value
yields the initial value plus the sum of the terms. -/
lemma foldl_add_eq_sum {α : Type} (g : α → ℚ) (l : List α) (init : ℚ) :
    l.foldl (fun acc a => acc + g a) init = init + (l.map g).sum := by
  induction l generalizing init with
  | nil => simp
  | cons a l ih => simp [ih, add_assoc]

/-- C1: the compiled evaluation function is total.  Compilation failure
yields the constant-zero function; on success an invocation returns the
evaluated value when the underlying evaluation produced a finite number,
and 0 when it threw, produced a non-number, or produced a non-finite
number — in every case the call returns a value, so no exception escapes.
Both the 2D and the 3D compiler are covered. -/
theorem c1_compiled_evaluation_total (f : ℚ → ℚ → EvalOutcome)
    (f3 : ℚ → ℚ → ℚ → EvalOutcome) (x y z : ℚ) :
    createFieldFunction none x y = 0 ∧
    createFieldFunction3D none x y z = 0 ∧
    (∀ v, f x y = .numFinite v → createFieldFunction (some f) x y = v) ∧
    (f x y = .thrown ∨ f x y = .nonNumber ∨ f x y = .numNonFinite →
      createFieldFunction (some f) x y = 0) ∧
    (∀ v, f3 x y z = .numFinite v → createFieldFunction3D (some f3) x y z = v) ∧
    (f3 x y z = .thrown ∨ f3 x y z = .nonNumber ∨ f3 x y z = .numNonFinite →
      createFieldFunction3D (some f3) x y z = 0) := by
  refine ⟨rfl, rfl, ?_, ?_, ?_, ?_⟩
  · intro v h
    simp [createFieldFunction, h, guardOutcome]
  · rintro (h | h | h) <;> simp [createFieldFunction, h, guardOutcome]
  · intro v h
    simp [createFieldFunction3D, h, guardOutcome]
  · rintro (h | h | h) <;> simp [createFieldFunction3D, h, guardOutcome]

/-- C2 fails on the code: new Function compiles its body at global scope, so
a compiled expression can observe ambient state.  For the source string
Date.now() two invocations with equal arguments (x, y) = (0, 0) under two
ambient clock values return different results, refuting both the
free-identifier claim and the state-independence claim. -/
theorem c2_ambient_state_observable :
    createFieldFunctionAmbient (some dateNowRaw) 1 0 0 ≠
      createFieldFunctionAmbient (some dateNowRaw) 2 0 0 := by
  norm_num [createFieldFunctionAmbient, dateNowRaw, guardOutcome]

/-- C5: each effective field component is the base component at the position
plus the sum over sources of strength * component of (position - source) /
(squared separation + 1/100); with no sources the evaluator is exactly the
base field; the denominator is always at least 1/100, so it is never
zero. -/
theorem c5_source_superposition (baseFx baseFy : ℚ → ℚ → ℚ)
    (sources : List PointSource) (x y : ℚ) :
    combinedFx baseFx sources x y
        = baseFx x y + (sources.map (fun ps =>
            ps.strength * (x - ps.x) /
              ((x - ps.x) * (x - ps.x) + (y - ps.y) * (y - ps.y) + 1/100))).sum ∧
    combinedFy baseFy sources x y
        = baseFy x y + (sources.map (fun ps =>
            ps.strength * (y - ps.y) /
              ((x - ps.x) * (x - ps.x) + (y - ps.y) * (y - ps.y) + 1/100))).sum ∧
    combinedFx baseFx [] x y = baseFx x y ∧
    combinedFy baseFy [] x y = baseFy x y ∧
    ∀ ps : PointSource,
      (1 : ℚ)/100 ≤ (x - ps.x) * (x - ps.x) + (y - ps.y) * (y - ps.y) + 1/100 := by
  refine ⟨foldl_add_eq_sum _ sources _, foldl_add_eq_sum _ sources _, rfl, rfl, ?_⟩
  intro ps
  have hx := mul_self_nonneg (x - ps.x)
  have hy := mul_self_nonneg (y - ps.y)
  linarith

/-- C6: for the Electric Dipole preset the evaluator at the origin is the
vector (600/101, 0), which is well defined and non-zero, and doubling both
strengths doubles the evaluated vector at every point. -/
theorem c6_dipole_origin_and_linearity (x y : ℚ) :
    combinedFx zeroBase electricDipoleSources 0 0 = 600/101 ∧
    combinedFy zeroBase electricDipoleSources 0 0 = 0 ∧
    ¬(combinedFx zeroBase electricDipoleSources 0 0 = 0 ∧
      combinedFy zeroBase electricDipoleSources 0 0 = 0) ∧
    combinedFx zeroBase (scaleStrengths 2 electricDipoleSources) x y
      = 2 * combinedFx zeroBase electricDipoleSources x y ∧
    combinedFy zeroBase (scaleStrengths 2 electricDipoleSources) x y
      = 2 * combinedFy zeroBase electricDipoleSources x y := by
  refine ⟨by norm_num [combinedFx, electricDipoleSources, zeroBase],
    by norm_num [combinedFy, electricDipoleSources, zeroBase], ?_, ?_, ?_⟩
  · rintro ⟨hfx, -⟩
    rw [show combinedFx zeroBase electricDipoleSources 0 0 = 600/101 from by
      norm_num [combinedFx, electricDipoleSources, zeroBase]] at hfx
    norm_num at hfx
  · simp only [combinedFx, scaleStrengths, electricDipoleSources, zeroBase,
      List.map_cons, List.map_nil, List.foldl_cons, List.foldl_nil]
    ring
  · simp only [combinedFy, scaleStrengths, electricDipoleSources, zeroBase,
      List.map_cons, List.map_nil, List.foldl_cons, List.foldl_nil]
    ring

/-- C8: whenever the recorded maximum of the divergence grid equals its
minimum, normalization returns the fixed midpoint 1/2 instead of dividing
by zero. -/
theorem c8_degenerate_range_midpoint (div minD maxD : ℚ) (h : maxD = minD) :
    normalizeDiv div minD maxD = 1/2 := by
  simp [normalizeDiv, h]

/-- Witness for C8: the degenerate range min = max = 2 on the sample 7
normalizes to 1/2. -/
theorem c8_degenerate_range_midpoint_witness : normalizeDiv 7 2 2 = 1/2 :=
  c8_degenerate_range_midpoint 7 2 2 rfl

/-- The number of rows of the built divergence grid. -/
lemma buildDivergenceGrid_length (Fx Fy : ℚ → ℚ → ℚ) :
    (buildDivergenceGrid Fx Fy).length = 101 := by
  simp [buildDivergenceGrid, gridSize]

/-- Every row of the built divergence grid has 101 entries. -/
lemma buildDivergenceGrid_row_length (Fx Fy : ℚ → ℚ → ℚ) (i : ℕ) (hi : i < 101) :
    ((buildDivergenceGrid Fx Fy).getD i []).length = 101 := by
  rw [List.getD_eq_getElem _ _ (by simpa [buildDivergenceGrid_length] using hi)]
  simp [buildDivergenceGrid, gridSize]

/-- Entry (i, j) of the built divergence grid is the central-difference
divergence of the current field at the grid point of column i and row
j. -/
lemma buildDivergenceGrid_getD (Fx Fy : ℚ → ℚ → ℚ) (i j : ℕ)
    (hi : i < 101) (hj : j < 101) :
    ((buildDivergenceGrid Fx Fy).getD i []).getD j 0
      = divergenceAt Fx Fy (gridPointX i) (gridPointY j) := by
  have hrow : (buildDivergenceGrid Fx Fy).getD i []
      = (List.range (gridSize + 1)).map
          (fun j => divergenceAt Fx Fy (gridPointX i) (gridPointY j)) := by
    rw [List.getD_eq_getElem _ _ (by simpa [buildDivergenceGrid_length] using hi)]
    simp [buildDivergenceGrid, gridSize, hi]
  rw [hrow, List.getD_eq_getElem _ _ (by simpa [gridSize] using hj)]
  simp [gridSize, hj]

/-- C4 as stated fails on the code: the fine divergence grid does not have
100 rows — the build loops run from 0 to gridSize inclusive, so the grid
built for the constant-zero field has 101 rows (and 101 entries per
row). -/
theorem c4_counterexample_grid_not_100 :
    (buildDivergenceGrid (fun _ _ => 0) (fun _ _ => 0)).length = 101 ∧
    ¬((buildDivergenceGrid (fun _ _ => 0) (fun _ _ => 0)).length = 100) := by
  refine ⟨buildDivergenceGrid_length _ _, ?_⟩
  rw [buildDivergenceGrid_length]
  norm_num

/-- C4 amended: the divergence grid built for the 2D view has dimensions
fixed at construction — 101 by 101 samples, the loops including both grid
edges — and on any change of the field every entry is recomputed from the
current field: for every field pair, entry (i, j) equals the
central-difference divergence of that field at grid point (i, j), so a
rebuild rewrites the grid wholesale and never keeps a stale entry. -/
theorem c4_grid_dimensions_and_wholesale (Fx Fy : ℚ → ℚ → ℚ) (i j : Fin 101) :
    (buildDivergenceGrid Fx Fy).length = 101 ∧
    ((buildDivergenceGrid Fx Fy).getD (i : ℕ) []).length = 101 ∧
    ((buildDivergenceGrid Fx Fy).getD (i : ℕ) []).getD (j : ℕ) 0
      = divergenceAt Fx Fy (gridPointX i) (gridPointY j) :=
  ⟨buildDivergenceGrid_length Fx Fy,
    buildDivergenceGrid_row_length Fx Fy i i.isLt,
    buildDivergenceGrid_getD Fx Fy i j i.isLt j.isLt⟩

/-- The radial outward field has central-difference divergence exactly 2 at
every point. -/
lemma divergenceAt_radial (x y : ℚ) : divergenceAt radialFx radialFy x y = 2 := by
  simp only [divergenceAt, derivative, radialFx, radialFy, combinedFx, combinedFy,
    List.foldl_nil, hStep]
  norm_num

/-- C9: for the field Fx = x, Fy = y with no point sources, the divergence
recorded at every grid point — each partial a central difference with step
h = 1/100 — is exactly 2, hence within tolerance 1/1000000 of 2. -/
theorem c9_radial_divergence_two (i j : Fin 101) :
    ((buildDivergenceGrid radialFx radialFy).getD (i : ℕ) []).getD (j : ℕ) 0 = 2 ∧
    |((buildDivergenceGrid radialFx radialFy).getD (i : ℕ) []).getD (j : ℕ) 0 - 2|
      ≤ 1/1000000 := by
  have h := buildDivergenceGrid_getD radialFx radialFy i j i.isLt j.isLt
  rw [h, divergenceAt_radial]
  norm_num

/-- A respawn coordinate (r * 2 - 1) * range stays within the domain when
the random draw lies in [0, 1] and the range is nonnegative. -/
lemma respawn_coord_bound (r range : ℚ) (h0 : 0 ≤ r) (h1 : r ≤ 1) (hr : 0 ≤ range) :
    |(r * 2 - 1) * range| ≤ range := by
  have habs : |r * 2 - 1| ≤ 1 := abs_le.mpr ⟨by linarith, by linarith⟩
  calc |(r * 2 - 1) * range| = |r * 2 - 1| * range := by
        rw [abs_mul, abs_of_nonneg hr]
    _ ≤ 1 * range := mul_le_mul_of_nonneg_right habs hr
    _ = range := one_mul range

/-- Case analysis of the 2D respawn check: the trigger condition decides the
branch, and either way the resulting position lies within the domain. -/
lemma respawnCheck_spec (range : ℚ) (rnd : Rand2) (q : Particle)
    (h1 : 0 ≤ rnd.r1) (h2 : rnd.r1 ≤ 1) (h3 : 0 ≤ rnd.r2) (h4 : rnd.r2 ≤ 1)
    (hr : 0 ≤ range) :
    ((q.life ≤ 0 ∨ range < |q.x| ∨ range < |q.y|) →
      respawnCheck range rnd q
        = ⟨(rnd.r1 * 2 - 1) * range, (rnd.r2 * 2 - 1) * range, 1⟩) ∧
    (¬(q.life ≤ 0 ∨ range < |q.x| ∨ range < |q.y|) → respawnCheck range rnd q = q) ∧
    |(respawnCheck range rnd q).x| ≤ range ∧ |(respawnCheck range rnd q).y| ≤ range := by
  refine ⟨fun h => by simp [respawnCheck, h], fun h => by simp [respawnCheck, h], ?_, ?_⟩
  · by_cases h : q.life ≤ 0 ∨ range < |q.x| ∨ range < |q.y|
    · simp only [respawnCheck, if_pos h]
      exact respawn_coord_bound rnd.r1 range h1 h2 hr
    · simp only [respawnCheck, if_neg h]
      push_neg at h
      linarith [h.2.1]
  · by_cases h : q.life ≤ 0 ∨ range < |q.x| ∨ range < |q.y|
    · simp only [respawnCheck, if_pos h]
      exact respawn_coord_bound rnd.r2 range h3 h4 hr
    · simp only [respawnCheck, if_neg h]
      push_neg at h
      linarith [h.2.2]

/-- Case analysis of the 3D respawn check. -/
lemma respawnCheck3D_spec (range : ℚ) (rnd : Rand3) (q : Particle3D)
    (h1 : 0 ≤ rnd.r1) (h2 : rnd.r1 ≤ 1) (h3 : 0 ≤ rnd.r2) (h4 : rnd.r2 ≤ 1)
    (h5 : 0 ≤ rnd.r3) (h6 : rnd.r3 ≤ 1) (hr : 0 ≤ range) :
    ((q.life ≤ 0 ∨ range < |q.px| ∨ range < |q.py| ∨ range < |q.pz|) →
      respawnCheck3D range rnd q
        = { q with
              px := (rnd.r1 * 2 - 1) * range
              py := (rnd.r2 * 2 - 1) * range
              pz := (rnd.r3 * 2 - 1) * range
              life := 1 }) ∧
    (¬(q.life ≤ 0 ∨ range < |q.px| ∨ range < |q.py| ∨ range < |q.pz|) →
      respawnCheck3D range rnd q = q) ∧
    |(respawnCheck3D range rnd q).px| ≤ range ∧
    |(respawnCheck3D range rnd q).py| ≤ range ∧
    |(respawnCheck3D range rnd q).pz| ≤ range := by
  refine ⟨fun h => by simp [respawnCheck3D, h], fun h => by simp [respawnCheck3D, h],
    ?_, ?_, ?_⟩ <;>
    by_cases h : q.life ≤ 0 ∨ range < |q.px| ∨ range < |q.py| ∨ range < |q.pz|
  · simp only [respawnCheck3D, if_pos h]
    exact respawn_coord_bound rnd.r1 range h1 h2 hr
  · simp only [respawnCheck3D, if_neg h]
    push_neg at h
    linarith [h.2.1]
  · simp only [respawnCheck3D, if_pos h]
    exact respawn_coord_bound rnd.r2 range h3 h4 hr
  · simp only [respawnCheck3D, if_neg h]
    push_neg at h
    linarith [h.2.2.1]
  · simp only [respawnCheck3D, if_pos h]
    exact respawn_coord_bound rnd.r3 range h5 h6 hr
  · simp only [respawnCheck3D, if_neg h]
    push_neg at h
    linarith [h.2.2.2]

/-- C3: in both views, writing q for the particle after the position advance
and life decay of one tick, the respawn triggers exactly when q.life is at
most 0 or some coordinate of q exceeds the domain range in absolute value;
on trigger the position is reassigned to (r * 2 - 1) * range from the
injected random draws on each axis and life is reset to exactly 1, and
otherwise the particle is left as q — so immediately after the respawn
check every coordinate lies within [-range, range]. -/
theorem c3_respawn_lifecycle
    (Fx Fy : ℚ → ℚ → JsNum) (G1 G2 G3 : ℚ → ℚ → ℚ → JsNum)
    (delta speed range : ℚ) (rnd2 : Rand2) (rnd3 : Rand3)
    (p : Particle) (P : Particle3D)
    (ha : 0 ≤ rnd2.r1) (hb : rnd2.r1 ≤ 1) (hc : 0 ≤ rnd2.r2) (hd : rnd2.r2 ≤ 1)
    (he : 0 ≤ rnd3.r1) (hf : rnd3.r1 ≤ 1) (hg : 0 ≤ rnd3.r2) (hh : rnd3.r2 ≤ 1)
    (hi : 0 ≤ rnd3.r3) (hj : rnd3.r3 ≤ 1) (hr : 0 ≤ range) :
    (((decayLife speed (advance Fx Fy speed p)).life ≤ 0 ∨
        range < |(decayLife speed (advance Fx Fy speed p)).x| ∨
        range < |(decayLife speed (advance Fx Fy speed p)).y|) →
      stepParticle2D Fx Fy speed range rnd2 p
        = ⟨(rnd2.r1 * 2 - 1) * range, (rnd2.r2 * 2 - 1) * range, 1⟩) ∧
    (¬((decayLife speed (advance Fx Fy speed p)).life ≤ 0 ∨
        range < |(decayLife speed (advance Fx Fy speed p)).x| ∨
        range < |(decayLife speed (advance Fx Fy speed p)).y|) →
      stepParticle2D Fx Fy speed range rnd2 p = decayLife speed (advance Fx Fy speed p)) ∧
    |(stepParticle2D Fx Fy speed range rnd2 p).x| ≤ range ∧
    |(stepParticle2D Fx Fy speed range rnd2 p).y| ≤ range ∧
    (((decayLife3D delta speed (advance3D G1 G2 G3 delta speed P)).life ≤ 0 ∨
        range < |(decayLife3D delta speed (advance3D G1 G2 G3 delta speed P)).px| ∨
        range < |(decayLife3D delta speed (advance3D G1 G2 G3 delta speed P)).py| ∨
        range < |(decayLife3D delta speed (advance3D G1 G2 G3 delta speed P)).pz|) →
      stepParticle3D G1 G2 G3 delta speed range rnd3 P
        = { decayLife3D delta speed (advance3D G1 G2 G3 delta speed P) with
              px := (rnd3.r1 * 2 - 1) * range
              py := (rnd3.r2 * 2 - 1) * range
              pz := (rnd3.r3 * 2 - 1) * range
              life := 1 }) ∧
    (¬((decayLife3D delta speed (advance3D G1 G2 G3 delta speed P)).life ≤ 0 ∨
        range < |(decayLife3D delta speed (advance3D G1 G2 G3 delta speed P)).px| ∨
        range < |(decayLife3D delta speed (advance3D G1 G2 G3 delta speed P)).py| ∨
        range < |(decayLife3D delta speed (advance3D G1 G2 G3 delta speed P)).pz|) →
      stepParticle3D G1 G2 G3 delta speed range rnd3 P
        = decayLife3D delta speed (advance3D G1 G2 G3 delta speed P)) ∧
    |(stepParticle3D G1 G2 G3 delta speed range rnd3 P).px| ≤ range ∧
    |(stepParticle3D G1 G2 G3 delta speed range rnd3 P).py| ≤ range ∧
    |(stepParticle3D G1 G2 G3 delta speed range rnd3 P).pz| ≤ range := by
  have h2 := respawnCheck_spec range rnd2 (decayLife speed (advance Fx Fy speed p))
    ha hb hc hd hr
  have h3 := respawnCheck3D_spec range rnd3
    (decayLife3D delta speed (advance3D G1 G2 G3 delta speed P)) he hf hg hh hi hj hr
  exact ⟨h2.1, h2.2.1, h2.2.2.1, h2.2.2.2, h3.1, h3.2.1, h3.2.2.1, h3.2.2.2.1,
    h3.2.2.2.2⟩

/-- Witness for C3: with a zero field, speed 1, range 3, random draws 1/2 and
a particle whose remaining life 1/1000 dies this tick, the particle
respawns at the origin with life exactly 1. -/
theorem c3_respawn_lifecycle_witness :
    stepParticle2D (fun _ _ => .fin 0) (fun _ _ => .fin 0) 1 3 ⟨1/2, 1/2⟩
      ⟨0, 0, 1/1000⟩ = ⟨(1/2 * 2 - 1) * 3, (1/2 * 2 - 1) * 3, 1⟩ :=
  (c3_respawn_lifecycle (fun _ _ => .fin 0) (fun _ _ => .fin 0)
    (fun _ _ _ => .fin 0) (fun _ _ _ => .fin 0) (fun _ _ _ => .fin 0)
    1 1 3 ⟨1/2, 1/2⟩ ⟨1/2, 1/2, 1/2⟩ ⟨0, 0, 1/1000⟩ ⟨0, 0, 0, 0, 0, 0, 1⟩
    (by norm_num) (by norm_num) (by norm_num) (by norm_num) (by norm_num)
    (by norm_num) (by norm_num) (by norm_num) (by norm_num) (by norm_num)
    (by norm_num)).1
    (Or.inl (by norm_num [decayLife, advance, lifeDecay2D, dtOf]))

/-- The 2D pass preserves the number of particles. -/
lemma stepParticles2D_length (Fx Fy : ℚ → ℚ → JsNum) (speed range : ℚ)
    (rnd : ℕ → Rand2) (i : ℕ) (ps : List Particle) :
    (stepParticles2D Fx Fy speed range rnd i ps).length = ps.length := by
  induction ps generalizing i with
  | nil => rfl
  | cons p ps ih => simp [stepParticles2D, ih]

/-- The k-th particle after the 2D pass is the stepped k-th particle before
it. -/
lemma stepParticles2D_getElem? (Fx Fy : ℚ → ℚ → JsNum) (speed range : ℚ)
    (rnd : ℕ → Rand2) (i k : ℕ) (ps : List Particle) :
    (stepParticles2D Fx Fy speed range rnd i ps)[k]?
      = ps[k]?.map (stepParticle2D Fx Fy speed range (rnd (i + k))) := by
  induction ps generalizing i k with
  | nil => simp [stepParticles2D]
  | cons p ps ih =>
      cases k with
      | zero => simp [stepParticles2D]
      | succ k =>
          have harg : i + 1 + k = i + (k + 1) := by omega
          simp [stepParticles2D, ih, harg]

/-- The 3D pass preserves the number of particles. -/
lemma stepParticles3D_length (G1 G2 G3 : ℚ → ℚ → ℚ → JsNum)
    (delta speed range : ℚ) (rnd : ℕ → Rand3) (i : ℕ) (ps : List Particle3D) :
    (stepParticles3D G1 G2 G3 delta speed range rnd i ps).length = ps.length := by
  induction ps generalizing i with
  | nil => rfl
  | cons p ps ih => simp [stepParticles3D, ih]

/-- The k-th particle after the 3D pass is the stepped k-th particle before
it. -/
lemma stepParticles3D_getElem? (G1 G2 G3 : ℚ → ℚ → ℚ → JsNum)
    (delta speed range : ℚ) (rnd : ℕ → Rand3) (i k : ℕ) (ps : List Particle3D) :
    (stepParticles3D G1 G2 G3 delta speed range rnd i ps)[k]?
      = ps[k]?.map (stepParticle3D G1 G2 G3 delta speed range (rnd (i + k))) := by
  induction ps generalizing i k with
  | nil => simp [stepParticles3D]
  | cons p ps ih =>
      cases k with
      | zero => simp [stepParticles3D]
      | succ k =>
          have harg : i + 1 + k = i + (k + 1) := by omega
          simp [stepParticles3D, ih, harg]

/-- The 3D advance never touches the stored velocity or the life. -/
lemma advance3D_preserves (G1 G2 G3 : ℚ → ℚ → ℚ → JsNum) (delta speed : ℚ)
    (q : Particle3D) :
    (advance3D G1 G2 G3 delta speed q).vx = q.vx ∧
    (advance3D G1 G2 G3 delta speed q).vy = q.vy ∧
    (advance3D G1 G2 G3 delta speed q).vz = q.vz ∧
    (advance3D G1 G2 G3 delta speed q).life = q.life := by
  cases hx : G1 q.px q.py q.pz <;> cases hy : G2 q.px q.py q.pz <;>
    cases hz : G3 q.px q.py q.pz <;> simp [advance3D, hx, hy, hz]

/-- The 3D respawn check never touches the stored velocity. -/
lemma respawnCheck3D_preserves_v (range : ℚ) (rnd : Rand3) (q : Particle3D) :
    (respawnCheck3D range rnd q).vx = q.vx ∧
    (respawnCheck3D range rnd q).vy = q.vy ∧
    (respawnCheck3D range rnd q).vz = q.vz := by
  by_cases h : q.life ≤ 0 ∨ range < |q.px| ∨ range < |q.py| ∨ range < |q.pz|
  · simp [respawnCheck3D, if_pos h]
  · simp [respawnCheck3D, if_neg h]

/-- C10: a tick maps each particle in place: the particle count is unchanged
by a pass and the k-th particle after it is the stepped k-th particle
before it, for both views; the step is exactly advance, then decay, then
the respawn check; when a sampled velocity component is non-finite the
Euler advance leaves the particle untouched, so only the respawn check can
still move it; and the stored velocity field of a 3D particle is never
written by a step. -/
theorem c10_step_frame_effect
    (Fx Fy : ℚ → ℚ → JsNum) (G1 G2 G3 : ℚ → ℚ → ℚ → JsNum)
    (delta speed range : ℚ) (rnd2 : ℕ → Rand2) (rnd3 : ℕ → Rand3)
    (ps : List Particle) (qs : List Particle3D) (k : ℕ)
    (rr2 : Rand2) (rr3 : Rand3) (p : Particle) (q : Particle3D) :
    (stepParticles2D Fx Fy speed range rnd2 0 ps).length = ps.length ∧
    (stepParticles3D G1 G2 G3 delta speed range rnd3 0 qs).length = qs.length ∧
    (stepParticles2D Fx Fy speed range rnd2 0 ps)[k]?
      = ps[k]?.map (stepParticle2D Fx Fy speed range (rnd2 k)) ∧
    (stepParticles3D G1 G2 G3 delta speed range rnd3 0 qs)[k]?
      = qs[k]?.map (stepParticle3D G1 G2 G3 delta speed range (rnd3 k)) ∧
    stepParticle2D Fx Fy speed range rr2 p
      = respawnCheck range rr2 (decayLife speed (advance Fx Fy speed p)) ∧
    stepParticle3D G1 G2 G3 delta speed range rr3 q
      = respawnCheck3D range rr3
          (decayLife3D delta speed (advance3D G1 G2 G3 delta speed q)) ∧
    ((Fx p.x p.y).isFinite = false ∨ (Fy p.x p.y).isFinite = false →
      advance Fx Fy speed p = p) ∧
    ((G1 q.px q.py q.pz).isFinite = false ∨ (G2 q.px q.py q.pz).isFinite = false ∨
        (G3 q.px q.py q.pz).isFinite = false →
      advance3D G1 G2 G3 delta speed q = q) ∧
    (stepParticle3D G1 G2 G3 delta speed range rr3 q).vx = q.vx ∧
    (stepParticle3D G1 G2 G3 delta speed range rr3 q).vy = q.vy ∧
    (stepParticle3D G1 G2 G3 delta speed range rr3 q).vz = q.vz := by
  have hadv2 : (Fx p.x p.y).isFinite = false ∨ (Fy p.x p.y).isFinite = false →
      advance Fx Fy speed p = p := by
    intro h
    cases hx : Fx p.x p.y <;> cases hy : Fy p.x p.y <;>
      simp [advance, hx, hy] <;> simp [hx, hy, JsNum.isFinite] at h
  have hadv3 : (G1 q.px q.py q.pz).isFinite = false ∨
      (G2 q.px q.py q.pz).isFinite = false ∨
      (G3 q.px q.py q.pz).isFinite = false →
      advance3D G1 G2 G3 delta speed q = q := by
    intro h
    cases hx : G1 q.px q.py q.pz <;> cases hy : G2 q.px q.py q.pz <;>
      cases hz : G3 q.px q.py q.pz <;>
      simp [advance3D, hx, hy, hz] <;> simp [hx, hy, hz, JsNum.isFinite] at h
  have hv := respawnCheck3D_preserves_v range rr3
    (decayLife3D delta speed (advance3D G1 G2 G3 delta speed q))
  have ha := advance3D_preserves G1 G2 G3 delta speed q
  refine ⟨stepParticles2D_length Fx Fy speed range rnd2 0 ps,
    stepParticles3D_length G1 G2 G3 delta speed range rnd3 0 qs,
    by simpa using stepParticles2D_getElem? Fx Fy speed range rnd2 0 k ps,
    by simpa using stepParticles3D_getElem? G1 G2 G3 delta speed range rnd3 0 k qs,
    rfl, rfl, hadv2, hadv3, ?_, ?_, ?_⟩
  · rw [show stepParticle3D G1 G2 G3 delta speed range rr3 q
        = respawnCheck3D range rr3
            (decayLife3D delta speed (advance3D G1 G2 G3 delta speed q)) from rfl,
      hv.1]
    simpa [decayLife3D] using ha.1
  · rw [show stepParticle3D G1 G2 G3 delta speed range rr3 q
        = respawnCheck3D range rr3
            (decayLife3D delta speed (advance3D G1 G2 G3 delta speed q)) from rfl,
      hv.2.1]
    simpa [decayLife3D] using ha.2.1
  · rw [show stepParticle3D G1 G2 G3 delta speed range rr3 q
        = respawnCheck3D range rr3
            (decayLife3D delta speed (advance3D G1 G2 G3 delta speed q)) from rfl,
      hv.2.2]
    simpa [decayLife3D] using ha.2.2.1

/-- Witness for C10: with the constant non-finite field the advance leaves a
concrete particle at the origin untouched. -/
theorem c10_step_frame_effect_witness :
    advance (fun _ _ => .nonFinite) (fun _ _ => .nonFinite) 1 ⟨0, 0, 1⟩ = ⟨0, 0, 1⟩ :=
  (c10_step_frame_effect (fun _ _ => .nonFinite) (fun _ _ => .nonFinite)
    (fun _ _ _ => .fin 0) (fun _ _ _ => .fin 0) (fun _ _ _ => .fin 0)
    1 1 3 (fun _ => ⟨1/2, 1/2⟩) (fun _ => ⟨1/2, 1/2, 1/2⟩) [] [] 0
    ⟨1/2, 1/2⟩ ⟨1/2, 1/2, 1/2⟩ ⟨0, 0, 1⟩
    ⟨0, 0, 0, 0, 0, 0, 1⟩).2.2.2.2.2.2.1 (Or.inl rfl)

/-- The clamp never goes below 0. -/
lemma clamp01_nonneg (t : ℚ) : 0 ≤ clamp01 t := le_max_left 0 _

/-- The clamp never goes above 1. -/
lemma clamp01_le_one (t : ℚ) : clamp01 t ≤ 1 :=
  max_le (by norm_num) (min_le_left 1 t)

/-- The clamp fixes values already in [0, 1]. -/
lemma clamp01_of_mem (x : ℚ) (h0 : 0 ≤ x) (h1 : x ≤ 1) : clamp01 x = x := by
  simp [clamp01, min_eq_right h1, max_eq_right h0]

/-- The clamp is idempotent. -/
lemma clamp01_idem (t : ℚ) : clamp01 (clamp01 t) = clamp01 t :=
  clamp01_of_mem _ (clamp01_nonneg t) (clamp01_le_one t)

/-- Rounding an integer returns it unmodified. -/
lemma jsRound_intCast (n : ℤ) : jsRound (n : ℚ) = n := by
  have h : ((n : ℚ) + 1/2) = (1/2 + (n : ℚ)) := by ring
  rw [jsRound, h, Int.floor_add_int]
  norm_num

/-- Rounding a rational in [0, 255] lands in [0, 255]. -/
lemma jsRound_bounds (q : ℚ) (h0 : 0 ≤ q) (h1 : q ≤ 255) :
    0 ≤ jsRound q ∧ jsRound q ≤ 255 := by
  constructor
  · exact Int.floor_nonneg.mpr (by linarith)
  · have hlt : q + 1/2 < ((256 : ℤ) : ℚ) := by push_cast; linarith
    have h := Int.floor_lt.mpr hlt
    rw [jsRound]
    omega

/-- The interpolated channel between two anchors with channels in [0, 255]
stays in [0, 255] for any fraction in [0, 1]. -/
lemma lerpChannel_bounds (a b : ℤ) (frac : ℚ) (ha0 : 0 ≤ a) (ha1 : a ≤ 255)
    (hb0 : 0 ≤ b) (hb1 : b ≤ 255) (hf0 : 0 ≤ frac) (hf1 : frac ≤ 1) :
    0 ≤ lerpChannel a b frac ∧ lerpChannel a b frac ≤ 255 := by
  have ha0q : (0 : ℚ) ≤ (a : ℚ) := by exact_mod_cast ha0
  have ha1q : (a : ℚ) ≤ 255 := by exact_mod_cast ha1
  have hb0q : (0 : ℚ) ≤ (b : ℚ) := by exact_mod_cast hb0
  have hb1q : (b : ℚ) ≤ 255 := by exact_mod_cast hb1
  apply jsRound_bounds
  · nlinarith [mul_nonneg ha0q (by linarith : (0 : ℚ) ≤ 1 - frac), mul_nonneg hb0q hf0]
  · nlinarith [mul_nonneg (by linarith : (0 : ℚ) ≤ 255 - (a : ℚ))
      (by linarith : (0 : ℚ) ≤ 1 - frac),
      mul_nonneg (by linarith : (0 : ℚ) ≤ 255 - (b : ℚ)) hf0]

/-- On a nonempty palette whose channels lie in [0, 255], the interpolation
always returns a color (no out-of-bounds anchor access) and its channels
lie in [0, 255]. -/
lemma interpolatePalette_total (colors : List RGB) (hne : colors ≠ [])
    (hbound : ∀ c ∈ colors, 0 ≤ c.r ∧ c.r ≤ 255 ∧ 0 ≤ c.g ∧ c.g ≤ 255 ∧
      0 ≤ c.b ∧ c.b ≤ 255) (t : ℚ) :
    ∃ c, interpolatePalette t colors = some c ∧ 0 ≤ c.r ∧ c.r ≤ 255 ∧
      0 ≤ c.g ∧ c.g ≤ 255 ∧ 0 ≤ c.b ∧ c.b ≤ 255 := by
  have hN : 0 < colors.length := List.length_pos.mpr hne
  have hd0 : (0 : ℚ) ≤ (colors.length : ℚ) - 1 := by
    have h1 : (1 : ℚ) ≤ (colors.length : ℚ) := by exact_mod_cast hN
    linarith
  have hs0 : 0 ≤ clamp01 t * ((colors.length : ℚ) - 1) :=
    mul_nonneg (clamp01_nonneg t) hd0
  have hidx0 : 0 ≤ ⌊clamp01 t * ((colors.length : ℚ) - 1)⌋ :=
    Int.floor_nonneg.mpr hs0
  simp only [interpolatePalette]
  split_ifs with hbr
  · have hlast : colors.length - 1 < colors.length := by omega
    refine ⟨colors.get ⟨colors.length - 1, hlast⟩, List.getElem?_eq_getElem hlast, ?_⟩
    exact hbound _ (List.getElem_mem hlast)
  · push_neg at hbr
    have htoNat : (⌊clamp01 t * ((colors.length : ℚ) - 1)⌋.toNat : ℤ)
        = ⌊clamp01 t * ((colors.length : ℚ) - 1)⌋ := Int.toNat_of_nonneg hidx0
    have h1 : ⌊clamp01 t * ((colors.length : ℚ) - 1)⌋.toNat < colors.length := by omega
    have h2 : ⌊clamp01 t * ((colors.length : ℚ) - 1)⌋.toNat + 1 < colors.length := by
      omega
    rw [List.getElem?_eq_getElem h1, List.getElem?_eq_getElem h2]
    have hf0 : 0 ≤ clamp01 t * ((colors.length : ℚ) - 1)
        - (⌊clamp01 t * ((colors.length : ℚ) - 1)⌋ : ℚ) :=
      sub_nonneg.mpr (Int.floor_le _)
    have hf1 : clamp01 t * ((colors.length : ℚ) - 1)
        - (⌊clamp01 t * ((colors.length : ℚ) - 1)⌋ : ℚ) ≤ 1 := by
      have := Int.lt_floor_add_one (clamp01 t * ((colors.length : ℚ) - 1))
      push_cast at this ⊢
      linarith
    obtain ⟨har, har2, hag, hag2, hab, hab2⟩ := hbound _ (List.getElem_mem h1)
    obtain ⟨hbr1, hbr2, hbg1, hbg2, hbb1, hbb2⟩ := hbound _ (List.getElem_mem h2)
    exact ⟨_, rfl,
      (lerpChannel_bounds _ _ _ har har2 hbr1 hbr2 hf0 hf1).1,
      (lerpChannel_bounds _ _ _ har har2 hbr1 hbr2 hf0 hf1).2,
      (lerpChannel_bounds _ _ _ hag hag2 hbg1 hbg2 hf0 hf1).1,
      (lerpChannel_bounds _ _ _ hag hag2 hbg1 hbg2 hf0 hf1).2,
      (lerpChannel_bounds _ _ _ hab hab2 hbb1 hbb2 hf0 hf1).1,
      (lerpChannel_bounds _ _ _ hab hab2 hbb1 hbb2 hf0 hf1).2⟩

/-- The interpolation clamps first: mapping t and mapping the clamped t
agree. -/
lemma interpolatePalette_clamp (t : ℚ) (colors : List RGB) :
    interpolatePalette t colors = interpolatePalette (clamp01 t) colors := by
  simp only [interpolatePalette, clamp01_idem]

/-- At the top edge — floor index at least N - 1 — the interpolation returns
the final anchor unmodified. -/
lemma interpolatePalette_top (t : ℚ) (colors : List RGB)
    (h : ((colors.length : ℤ) - 1) ≤ ⌊clamp01 t * ((colors.length : ℚ) - 1)⌋) :
    interpolatePalette t colors = colors[colors.length - 1]? := by
  simp only [interpolatePalette]
  rw [if_pos h]

/-- Mapping 0 returns the first anchor. -/
lemma interpolatePalette_zero (colors : List RGB) (hne : colors ≠ []) :
    interpolatePalette 0 colors = colors[0]? := by
  have hN : 0 < colors.length := List.length_pos.mpr hne
  have hc : clamp01 (0 : ℚ) = 0 := clamp01_of_mem 0 le_rfl zero_le_one
  by_cases hN1 : colors.length = 1
  · rw [interpolatePalette_top 0 colors (by rw [hc]; simp [hN1])]
    rw [hN1]
  · have hN2 : 2 ≤ colors.length := by omega
    simp only [interpolatePalette, hc, zero_mul, Int.floor_zero, Int.toNat_zero,
      Int.cast_zero, sub_zero, zero_add]
    rw [if_neg (by omega : ¬((colors.length : ℤ) - 1 ≤ 0))]
    rw [List.getElem?_eq_getElem (by omega : 0 < colors.length),
      List.getElem?_eq_getElem (by omega : 1 < colors.length)]
    simp only [lerpChannel, mul_zero, add_zero, jsRound_intCast]

/-- Mapping 1 returns the last anchor. -/
lemma interpolatePalette_one (colors : List RGB) :
    interpolatePalette 1 colors = colors[colors.length - 1]? := by
  have hc : clamp01 (1 : ℚ) = 1 := clamp01_of_mem 1 zero_le_one le_rfl
  apply interpolatePalette_top
  rw [hc, one_mul]
  have hcast : ((colors.length : ℚ) - 1) = (((colors.length : ℤ) - 1 : ℤ) : ℚ) := by
    push_cast
    ring
  rw [hcast, Int.floor_intCast]

/-- Each of the six palettes is nonempty with all channels in [0, 255]. -/
lemma colorMaps_sound (theme : ColorTheme) :
    colorMaps theme ≠ [] ∧ ∀ c ∈ colorMaps theme, 0 ≤ c.r ∧ c.r ≤ 255 ∧
      0 ≤ c.g ∧ c.g ≤ 255 ∧ 0 ≤ c.b ∧ c.b ≤ 255 := by
  cases theme <;> exact ⟨by decide, by decide⟩

/-- C7: for every rational t and every palette, getColor clamps t first and
returns a color with every channel in [0, 255]; getColor 0 is the first
anchor; at the top edge — t = 1 exactly, or floor index at least N - 1 —
getColor is the final anchor unmodified; and no anchor access is ever out
of bounds (the result is always some color). -/
theorem c7_getColor_spec (theme : ColorTheme) (t : ℚ) :
    (∃ c, getColor t theme = some c ∧ 0 ≤ c.r ∧ c.r ≤ 255 ∧
      0 ≤ c.g ∧ c.g ≤ 255 ∧ 0 ≤ c.b ∧ c.b ≤ 255) ∧
    getColor t theme = getColor (clamp01 t) theme ∧
    getColor 0 theme = (colorMaps theme)[0]? ∧
    getColor 1 theme = (colorMaps theme)[(colorMaps theme).length - 1]? ∧
    (((colorMaps theme).length : ℤ) - 1
        ≤ ⌊clamp01 t * (((colorMaps theme).length : ℚ) - 1)⌋ →
      getColor t theme = (colorMaps theme)[(colorMaps theme).length - 1]?) := by
  obtain ⟨hne, hbound⟩ := colorMaps_sound theme
  exact ⟨interpolatePalette_total _ hne hbound t,
    interpolatePalette_clamp t _,
    interpolatePalette_zero _ hne,
    interpolatePalette_one _,
    fun h => interpolatePalette_top t _ h⟩

end VFV
